import Mathlib

/-!
Verification development for the `strings` module of the `xmlop-datatypes`
Rust crate: XML `Name` / `NCName` / `QName` string types.

Strings are modelled as `List Char` (a sequence of Unicode scalar values,
exactly what Rust's `str::chars()` iterates over). Byte positions are
recovered with an explicit UTF-8 byte-size function where the source works
with byte offsets (`str::find`).
-/

/-- `is_name_start_char` from `src/strings/name.rs`: XML 1.1 `NameStartChar`
range membership test. -/
def is_name_start_char (c : Char) : Bool :=
  let n := c.toNat
  n = 0x3A || (0x41 ≤ n && n ≤ 0x5A) || n = 0x5F || (0x61 ≤ n && n ≤ 0x7A) ||
  (0xC0 ≤ n && n ≤ 0xD6) || (0xD8 ≤ n && n ≤ 0xF6) || (0xF8 ≤ n && n ≤ 0x2FF) ||
  (0x370 ≤ n && n ≤ 0x37D) || (0x37F ≤ n && n ≤ 0x1FFF) ||
  (0x200C ≤ n && n ≤ 0x200D) || (0x2070 ≤ n && n ≤ 0x218F) ||
  (0x2C00 ≤ n && n ≤ 0x2FEF) || (0x3001 ≤ n && n ≤ 0xD7FF) ||
  (0xF900 ≤ n && n ≤ 0xFDCF) || (0xFDF0 ≤ n && n ≤ 0xFFFD) ||
  (0x10000 ≤ n && n ≤ 0xEFFFF)

/-- `is_name_char` from `src/strings/name.rs`: XML 1.1 `NameChar`. -/
def is_name_char (c : Char) : Bool :=
  is_name_start_char c ||
  (let n := c.toNat
   n = 0x2D || n = 0x2E || (0x30 ≤ n && n ≤ 0x39) || n = 0xB7 ||
   (0x300 ≤ n && n ≤ 0x36F) || (0x203F ≤ n && n ≤ 0x2040))

/-- `NameError` from `src/strings/name.rs`. -/
inductive NameError where
  | Empty : NameError
  | InvalidNameChar : Nat → Char → NameError
deriving DecidableEq, Repr

deriving instance DecidableEq for Except

/-- The scan performed by `s.chars().enumerate()` + `find` in
`validate_name_str`: first element of `l` failing `is_name_char`, paired
with its running `enumerate` index (which counts scalar values). -/
def findInvalidNameChar : List Char → Nat → Option (Nat × Char)
  | [], _ => none
  | c :: rest, i =>
    if is_name_char c then findInvalidNameChar rest (i + 1) else some (i, c)

/-- `validate_name_str` from `src/strings/name.rs`. The position stored in
`InvalidNameChar` for a non-first character is the `enumerate` count of the
`chars()` iterator, i.e. the scalar-value index of the offending character. -/
def validate_name_str (s : List Char) : Except NameError (List Char) :=
  match s with
  | [] => Except.error NameError.Empty
  | head :: rest =>
    if is_name_start_char head then
      match findInvalidNameChar rest 1 with
      | some (pos, c) => Except.error (NameError.InvalidNameChar pos c)
      | none => Except.ok (head :: rest)
    else Except.error (NameError.InvalidNameChar 0 head)

/-- UTF-8 byte size of one scalar value (Rust `char::len_utf8`). -/
def charUtf8Size (c : Char) : Nat :=
  if c.toNat < 0x80 then 1
  else if c.toNat < 0x800 then 2
  else if c.toNat < 0x10000 then 3
  else 4

/-- Total UTF-8 byte length of a scalar-value sequence (`str::len`). -/
def utf8Length (s : List Char) : Nat := (s.map charUtf8Size).sum

/-- Byte offset of the first `':'`, the search done by `str::find(':')` in
`validate_ncname_str`; `acc` is the byte offset of the start of `l`. -/
def findColonBytePos : List Char → Nat → Option Nat
  | [], _ => none
  | c :: rest, acc =>
    if c = ':' then some acc else findColonBytePos rest (acc + charUtf8Size c)

/-- `validate_ncname_str` from `src/strings/ncname.rs`: run the `Name`
validator, then fail at the byte position of the first colon, if any. -/
def validate_ncname_str (s : List Char) : Except NameError (List Char) :=
  match validate_name_str s with
  | Except.error e => Except.error e
  | Except.ok t =>
    match findColonBytePos t 0 with
    | some pos => Except.error (NameError.InvalidNameChar pos ':')
    | none => Except.ok t

/-- `is_ncname_start_char` from `src/strings/ncname.rs`. -/
def is_ncname_start_char (c : Char) : Bool :=
  c != ':' && is_name_start_char c

/-- `is_ncname_char` from `src/strings/ncname.rs`. -/
def is_ncname_char (c : Char) : Bool :=
  c != ':' && is_name_char c

/-- Validated borrowed view of an XML `Name` (`NameStr`): a string slice
whose contents are known to pass `validate_name_str`. The validity invariant
is the one `opaque_typedef` enforces at every checked constructor. -/
structure NameStr where
  inner : List Char
  valid : validate_name_str inner = Except.ok inner

/-- Validated owned XML `Name` buffer (`NameString`). -/
structure NameString where
  inner : List Char
  valid : validate_name_str inner = Except.ok inner

/-- Validated borrowed view of an `NCName` (`NcnameStr`). -/
structure NcnameStr where
  inner : List Char
  valid : validate_ncname_str inner = Except.ok inner

/-- Validated owned `NCName` buffer (`NcnameString`). -/
structure NcnameString where
  inner : List Char
  valid : validate_ncname_str inner = Except.ok inner

/-- `NameStr::as_str`: projection to the underlying text. -/
def NameStr.as_str (v : NameStr) : List Char := v.inner

/-- `NameString::as_str`. -/
def NameString.as_str (b : NameString) : List Char := b.inner

/-- `ToOwned for NameStr` (`src/strings/macros.rs`): copy the underlying
text into an owned buffer, reusing the already-established invariant. -/
def NameStr.to_owned (v : NameStr) : NameString := ⟨v.inner, v.valid⟩

/-- `Borrow<NameStr> for NameString` (`src/strings/macros.rs`): zero-cost
view of the buffer's own storage. -/
def NameString.borrow (b : NameString) : NameStr := ⟨b.inner, b.valid⟩

/-- `NcnameStr::as_str`. -/
def NcnameStr.as_str (v : NcnameStr) : List Char := v.inner

/-- `NcnameString::as_str`. -/
def NcnameString.as_str (b : NcnameString) : List Char := b.inner

/-- `ToOwned for NcnameStr`. -/
def NcnameStr.to_owned (v : NcnameStr) : NcnameString := ⟨v.inner, v.valid⟩

/-- `Borrow<NcnameStr> for NcnameString`. -/
def NcnameString.borrow (b : NcnameString) : NcnameStr := ⟨b.inner, b.valid⟩

/-- Rust `str` equality (byte-for-byte equality of the UTF-8 encodings,
which coincides with equality of the scalar-value sequences). -/
def str_eq (a b : List Char) : Bool := a == b

/-- UTF-8 encoding of one scalar value, as byte values. -/
def charUtf8Bytes (c : Char) : List Nat :=
  let n := c.toNat
  if n < 0x80 then [n]
  else if n < 0x800 then [0xC0 + n / 0x40, 0x80 + n % 0x40]
  else if n < 0x10000 then
    [0xE0 + n / 0x1000, 0x80 + n / 0x40 % 0x40, 0x80 + n % 0x40]
  else
    [0xF0 + n / 0x40000, 0x80 + n / 0x1000 % 0x40, 0x80 + n / 0x40 % 0x40,
     0x80 + n % 0x40]

/-- UTF-8 encoding of a scalar-value sequence (`str::as_bytes`). -/
def utf8Encode : List Char → List Nat
  | [] => []
  | c :: rest => charUtf8Bytes c ++ utf8Encode rest

/-- Lexicographic comparison of byte sequences (Rust `[u8]::cmp`). -/
def bytesCompare : List Nat → List Nat → Ordering
  | [], [] => Ordering.eq
  | [], _ :: _ => Ordering.lt
  | _ :: _, [] => Ordering.gt
  | a :: restA, b :: restB =>
    if a < b then Ordering.lt
    else if b < a then Ordering.gt
    else bytesCompare restA restB

/-- Rust `str` ordering: lexicographic on the UTF-8 bytes. -/
def str_compare (a b : List Char) : Ordering :=
  bytesCompare (utf8Encode a) (utf8Encode b)

/-- Derived `PartialEq`/`Eq` on `NameStr` (compares the inner `str`). -/
def NameStr.eq (x y : NameStr) : Bool := str_eq x.as_str y.as_str

/-- Derived `Ord` on `NameStr` (compares the inner `str`). -/
def NameStr.cmp (x y : NameStr) : Ordering := str_compare x.as_str y.as_str

/-- Derived `PartialEq`/`Eq` on `NameString` (compares the inner `String`). -/
def NameString.eq (x y : NameString) : Bool := str_eq x.as_str y.as_str

/-- Derived `Ord` on `NameString`. -/
def NameString.cmp (x y : NameString) : Ordering := str_compare x.as_str y.as_str

/-- `impl_cmp!(NameStr, NameString, NameStr)`: both sides taken `as_ref` to
the borrowed view, then compared. -/
def NameString.eq_view (b : NameString) (v : NameStr) : Bool :=
  NameStr.eq b.borrow v

/-- Ordering half of `impl_cmp!(NameStr, NameString, NameStr)`. -/
def NameString.cmp_view (b : NameString) (v : NameStr) : Ordering :=
  NameStr.cmp b.borrow v

/-- `impl_cmp!(str, NameStr, String)` (the `str_cmp` extra impl). -/
def NameStr.eq_plain (v : NameStr) (s : List Char) : Bool := str_eq v.as_str s

/-- Ordering half of `impl_cmp!(str, NameStr, String)`. -/
def NameStr.cmp_plain (v : NameStr) (s : List Char) : Ordering :=
  str_compare v.as_str s

/-- `impl_cmp!(str, NameString, str)`. -/
def NameString.eq_plain (b : NameString) (s : List Char) : Bool :=
  str_eq b.as_str s

/-- Ordering half of `impl_cmp!(str, NameString, str)`. -/
def NameString.cmp_plain (b : NameString) (s : List Char) : Ordering :=
  str_compare b.as_str s

/-- Derived `PartialEq`/`Eq` on `NcnameStr`. -/
def NcnameStr.eq (x y : NcnameStr) : Bool := str_eq x.as_str y.as_str

/-- Derived `Ord` on `NcnameStr`. -/
def NcnameStr.cmp (x y : NcnameStr) : Ordering := str_compare x.as_str y.as_str

/-- Derived `PartialEq`/`Eq` on `NcnameString`. -/
def NcnameString.eq (x y : NcnameString) : Bool := str_eq x.as_str y.as_str

/-- Derived `Ord` on `NcnameString`. -/
def NcnameString.cmp (x y : NcnameString) : Ordering :=
  str_compare x.as_str y.as_str

/-- `impl_cmp!(NcnameStr, NcnameString, NcnameStr)`. -/
def NcnameString.eq_view (b : NcnameString) (v : NcnameStr) : Bool :=
  NcnameStr.eq b.borrow v

/-- Ordering half of `impl_cmp!(NcnameStr, NcnameString, NcnameStr)`. -/
def NcnameString.cmp_view (b : NcnameString) (v : NcnameStr) : Ordering :=
  NcnameStr.cmp b.borrow v

/-- `impl_cmp!(str, NcnameStr, String)`. -/
def NcnameStr.eq_plain (v : NcnameStr) (s : List Char) : Bool :=
  str_eq v.as_str s

/-- Ordering half of `impl_cmp!(str, NcnameStr, String)`. -/
def NcnameStr.cmp_plain (v : NcnameStr) (s : List Char) : Ordering :=
  str_compare v.as_str s

/-- `impl_cmp!(str, NcnameString, str)`. -/
def NcnameString.eq_plain (b : NcnameString) (s : List Char) : Bool :=
  str_eq b.as_str s

/-- Ordering half of `impl_cmp!(str, NcnameString, str)`. -/
def NcnameString.cmp_plain (b : NcnameString) (s : List Char) : Ordering :=
  str_compare b.as_str s

/-- On success, `validate_name_str` passes its input through unchanged. -/
theorem validate_name_str_ok_eq {s t : List Char}
    (h : validate_name_str s = Except.ok t) : t = s := by
  cases s with
  | nil => simp [validate_name_str] at h
  | cons head rest =>
    simp only [validate_name_str] at h
    split at h
    · split at h
      · simp at h
      · simp only [Except.ok.injEq] at h
        exact h.symm
    · simp at h

/-- On success, `validate_ncname_str` passes its input through unchanged. -/
theorem validate_ncname_str_ok_eq {s t : List Char}
    (h : validate_ncname_str s = Except.ok t) : t = s := by
  unfold validate_ncname_str at h
  split at h
  · simp at h
  case _ t' ht' =>
    split at h
    · simp at h
    · simp only [Except.ok.injEq] at h
      exact h ▸ validate_name_str_ok_eq ht'

/-- Success of `validate_ncname_str` in the form the checked constructor
needs. -/
theorem validate_ncname_str_ok_self {s t : List Char}
    (h : validate_ncname_str s = Except.ok t) :
    validate_ncname_str s = Except.ok s :=
  validate_ncname_str_ok_eq h ▸ h

/-- `NcnameStr::new` (`try_from_inner`): validate, then wrap. -/
def NcnameStr.new (s : List Char) : Except NameError NcnameStr :=
  match h : validate_ncname_str s with
  | Except.ok _ => Except.ok ⟨s, validate_ncname_str_ok_self h⟩
  | Except.error e => Except.error e

/-- `Qname` from `src/strings/qname.rs`: optional prefix plus mandatory
local part, both already-validated NCName buffers. (The source field names
are `prefix` and `local`, both reserved words here.) -/
structure Qname where
  prefix_ : Option NcnameString
  local_ : NcnameString

/-- `Qname::new`. -/
def Qname.new (p : Option NcnameString) (l : NcnameString) : Qname := ⟨p, l⟩

/-- `Qname::from_prefix_and_local`. -/
def Qname.from_prefix_and_local (p l : NcnameString) : Qname := ⟨some p, l⟩

/-- `Qname::from_local`. -/
def Qname.from_local (l : NcnameString) : Qname := ⟨none, l⟩

/-- `Qname::prefix` accessor: borrowed view of the prefix, if any. -/
def Qname.prefixView (q : Qname) : Option NcnameStr :=
  q.prefix_.map NcnameString.borrow

/-- `Qname::local` accessor: borrowed view of the local part. -/
def Qname.localView (q : Qname) : NcnameStr := q.local_.borrow

/-- `Qname::deconstruct`: consume the value, return both owned parts. -/
def Qname.deconstruct (q : Qname) : Option NcnameString × NcnameString :=
  (q.prefix_, q.local_)

/-- `Display for Qname`: `"{prefix}:"` when the prefix is present, then the
local part — exact concatenation. -/
def Qname.display (q : Qname) : List Char :=
  match q.prefix_ with
  | some p => p.as_str ++ ':' :: q.local_.as_str
  | none => q.local_.as_str

/-- `NcnameStr::nom_parse`: peek one character, require the NCName start
class, take the longest nonempty run of NCName characters (`take_while1`),
then convert through the checked constructor (the source `panic!`s when the
constructor disagrees with the recognizer; that dead branch is `none`).
Returns `(remaining input, parsed view)` like nom's `Ok((rest, value))`. -/
def ncname_str_nom_parse (input : List Char) : Option (List Char × NcnameStr) :=
  match input with
  | [] => none
  | c :: _ =>
    if is_ncname_start_char c then
      let matched := input.takeWhile is_ncname_char
      if matched.isEmpty then none
      else
        match NcnameStr.new matched with
        | Except.ok v => some (input.dropWhile is_ncname_char, v)
        | Except.error _ => none
    else none

/-- `NcnameString::nom_parse`: the borrowed parser followed by `to_owned`. -/
def ncname_string_nom_parse (input : List Char) :
    Option (List Char × NcnameString) :=
  (ncname_str_nom_parse input).map (fun r => (r.1, r.2.to_owned))

/-- First branch of `Qname::nom_parse`'s `alt!`:
`separated_pair!(NcnameString::nom_parse, char!(':'), NcnameString::nom_parse)`
mapped through `from_prefix_and_local`. -/
def qname_two_part (input : List Char) : Option (List Char × Qname) :=
  match ncname_string_nom_parse input with
  | none => none
  | some (rest1, p) =>
    match rest1 with
    | ':' :: rest2 =>
      match ncname_string_nom_parse rest2 with
      | none => none
      | some (rest3, l) => some (rest3, Qname.from_prefix_and_local p l)
    | _ => none

/-- Second branch of `Qname::nom_parse`'s `alt!`: a single NCName mapped
through `from_local`. -/
def qname_one_part (input : List Char) : Option (List Char × Qname) :=
  (ncname_string_nom_parse input).map (fun r => (r.1, Qname.from_local r.2))

/-- `Qname::nom_parse`: `alt!` tries the two-part form first and falls back
to the one-part form when the first branch fails with a recoverable error
(which is the only failure mode its combinators produce). -/
def qname_nom_parse (input : List Char) : Option (List Char × Qname) :=
  match qname_two_part input with
  | some r => some r
  | none => qname_one_part input

example : validate_name_str "foo:bar".toList = Except.ok "foo:bar".toList := by decide
example : validate_name_str [] = Except.error NameError.Empty := by decide
example : validate_name_str "1abc".toList =
    Except.error (NameError.InvalidNameChar 0 '1') := by decide
example : validate_ncname_str "foo:bar".toList =
    Except.error (NameError.InvalidNameChar 3 ':') := by decide
example : validate_name_str [Char.ofNat 0xC0, '!'] =
    Except.error (NameError.InvalidNameChar 1 '!') := by decide
example : utf8Length [Char.ofNat 0xC0] = 2 := by decide
example : (qname_nom_parse "foo:bar  ".toList).map
    (fun r => (r.1, r.2.prefix_.map NcnameString.as_str, r.2.local_.as_str)) =
    some ("  ".toList, some "foo".toList, "bar".toList) := by decide
example : (qname_nom_parse "foo:1bar".toList).map
    (fun r => (r.1, r.2.prefix_.map NcnameString.as_str, r.2.local_.as_str)) =
    some (":1bar".toList, none, "foo".toList) := by decide
example : (ncname_str_nom_parse "foo:bar".toList).map
    (fun r => (r.1, r.2.as_str)) = some (":bar".toList, "foo".toList) := by decide
example : (ncname_str_nom_parse " foo".toList).map
    (fun r => (r.1, r.2.as_str)) = none := by decide

/-- The enumerate-and-find scan returns `none` on a list of name
characters. -/
theorem findInvalidNameChar_none (l : List Char) (i : Nat)
    (h : ∀ c ∈ l, is_name_char c = true) : findInvalidNameChar l i = none := by
  induction l generalizing i with
  | nil => rfl
  | cons c rest ih =>
    have hc : is_name_char c = true := h c (List.mem_cons_self c rest)
    simp only [findInvalidNameChar, hc, if_true]
    exact ih (i + 1) (fun d hd => h d (List.mem_cons_of_mem c hd))

/-- The byte-offset colon search, characterized: when a colon is present it
returns the accumulator plus the UTF-8 length of the colon-free head. -/
theorem findColonBytePos_mem (l : List Char) (acc : Nat) (h : ':' ∈ l) :
    findColonBytePos l acc =
      some (acc + utf8Length (l.takeWhile (fun c => !(c == ':')))) := by
  induction l generalizing acc with
  | nil => cases h
  | cons c rest ih =>
    by_cases hc : c = ':'
    · subst hc
      simp [findColonBytePos, List.takeWhile_cons, utf8Length]
    · have hmem : ':' ∈ rest := by
        cases h with
        | head => exact absurd rfl hc
        | tail _ h' => exact h'
      have hne : (!(c == ':')) = true := by simp [hc]
      simp only [findColonBytePos, if_neg hc]
      rw [ih (acc + charUtf8Size c) hmem]
      simp [List.takeWhile_cons, hne, utf8Length, Nat.add_assoc]

/-- C1: the spec says `validate_name_str` reports the offending non-first
character at its exact byte offset; the code enumerates `chars()` and so
stores the scalar-value index instead. On `[U+00C0, '!']` the code reports
position 1 while the byte offset of `'!'` is 2 (the error type's own
`Display` text calls the field a byte position, and the colon branch of the
NCName validator does use byte offsets, so the scalar index here is a slip). -/
theorem c1_name_error_position_is_scalar_index :
    validate_name_str [Char.ofNat 0xC0, '!'] =
      Except.error (NameError.InvalidNameChar 1 '!') ∧
    utf8Length ([Char.ofNat 0xC0, '!'].take 1) = 2 ∧ (1 : Nat) ≠ 2 := by
  decide

/-- C2: every non-empty string whose first scalar value is a name start
character and whose remaining scalar values are name characters passes
`validate_name_str` unchanged. -/
theorem c2_validate_name_ok_passthrough (head : Char) (rest : List Char)
    (h1 : is_name_start_char head = true)
    (h2 : ∀ c ∈ rest, is_name_char c = true) :
    validate_name_str (head :: rest) = Except.ok (head :: rest) := by
  simp only [validate_name_str, h1, if_true]
  rw [findInvalidNameChar_none rest 1 h2]

/-- Witness for C2 at the concrete input `"foo"`. -/
theorem c2_validate_name_ok_passthrough_witness :
    validate_name_str ['f', 'o', 'o'] = Except.ok ['f', 'o', 'o'] :=
  c2_validate_name_ok_passthrough 'f' ['o', 'o'] (by decide) (by decide)

/-- C3: `validate_name_str` rejects the empty string with `Empty`, rejects a
bad first scalar value with `InvalidNameChar 0 head`, and `Empty` /
`InvalidNameChar` are the only error variants. -/
theorem c3_name_error_modes :
    validate_name_str [] = Except.error NameError.Empty ∧
    (∀ head : Char, ∀ rest : List Char, is_name_start_char head = false →
      validate_name_str (head :: rest) =
        Except.error (NameError.InvalidNameChar 0 head)) ∧
    (∀ e : NameError,
      e = NameError.Empty ∨ ∃ pos c, e = NameError.InvalidNameChar pos c) := by
  refine ⟨rfl, ?_, ?_⟩
  · intro head rest h
    simp [validate_name_str, h]
  · intro e
    cases e with
    | Empty => exact Or.inl rfl
    | InvalidNameChar pos c => exact Or.inr ⟨pos, c, rfl⟩

/-- Witness for C3 at the concrete input `"1a"`. -/
theorem c3_name_error_modes_witness :
    validate_name_str ['1', 'a'] =
      Except.error (NameError.InvalidNameChar 0 '1') :=
  c3_name_error_modes.2.1 '1' ['a'] (by decide)

/-- C4: on a valid `Name` containing a colon, `validate_ncname_str` fails at
the byte offset of the first `':'` with character `':'`; and whenever the
`Name` validator fails, its (grammar) error is returned unchanged, taking
priority over any colon error even when the colon comes earlier. -/
theorem c4_ncname_colon_priority :
    (∀ s : List Char, validate_name_str s = Except.ok s → ':' ∈ s →
      validate_ncname_str s = Except.error (NameError.InvalidNameChar
        (utf8Length (s.takeWhile (fun c => !(c == ':')))) ':')) ∧
    (∀ s : List Char, ∀ e : NameError, validate_name_str s = Except.error e →
      validate_ncname_str s = Except.error e) := by
  constructor
  · intro s hok hmem
    unfold validate_ncname_str
    rw [hok]
    simp [findColonBytePos_mem s 0 hmem]
  · intro s e he
    unfold validate_ncname_str
    rw [he]

/-- Witness for C4: `"foo:bar"` fails at byte offset 3 with `':'`, and the
grammar violation in `" :x"` (bad start character at position 0) wins over
its colon. -/
theorem c4_ncname_colon_priority_witness :
    validate_ncname_str "foo:bar".toList =
      Except.error (NameError.InvalidNameChar
        (utf8Length (("foo:bar".toList).takeWhile (fun c => !(c == ':')))) ':') ∧
    utf8Length (("foo:bar".toList).takeWhile (fun c => !(c == ':'))) = 3 ∧
    validate_ncname_str " :x".toList =
      Except.error (NameError.InvalidNameChar 0 ' ') :=
  ⟨c4_ncname_colon_priority.1 _ (by decide) (by decide), by decide,
   c4_ncname_colon_priority.2 " :x".toList
     (NameError.InvalidNameChar 0 ' ') (by decide)⟩

/-- C5: the NCName character classes are exactly the Name classes minus
`':'`; all four classifiers are total Boolean functions of one scalar
value. -/
theorem c5_ncname_chars_iff (c : Char) :
    (is_ncname_start_char c = true ↔ (is_name_start_char c = true ∧ c ≠ ':')) ∧
    (is_ncname_char c = true ↔ (is_name_char c = true ∧ c ≠ ':')) := by
  constructor <;>
    simp [is_ncname_start_char, is_ncname_char, Bool.and_eq_true,
      bne_iff_ne, and_comm]

/-- C6: `to_owned` followed by `Borrow::borrow` preserves the underlying
text of a view, and borrowing a buffer and copying the view back with
`to_owned` reproduces the buffer, for both the `Name` and `NCName`
families. -/
theorem c6_view_buffer_roundtrip :
    (∀ v : NameStr, v.to_owned.borrow.as_str = v.as_str) ∧
    (∀ b : NameString, b.borrow.to_owned = b) ∧
    (∀ v : NcnameStr, v.to_owned.borrow.as_str = v.as_str) ∧
    (∀ b : NcnameString, b.borrow.to_owned = b) := by
  refine ⟨fun v => rfl, fun b => ?_, fun v => rfl, fun b => ?_⟩ <;>
    cases b <;> rfl

/-- C7: `Qname::from_prefix_and_local p l` displays as exactly
`p ++ ":" ++ l` and `Qname::from_local l` displays as exactly `l`; both
constructors are total functions of already-validated NCName buffers. -/
theorem c7_qname_display :
    (∀ p l : NcnameString, (Qname.from_prefix_and_local p l).display =
      p.as_str ++ ':' :: l.as_str) ∧
    (∀ l : NcnameString, (Qname.from_local l).display = l.as_str) :=
  ⟨fun _ _ => rfl, fun _ => rfl⟩

/-- C8 counterexample: on `"foo:1bar"` the input begins with the valid
NCName `"foo"` followed by `':'`, and the two-part branch fails downstream
(`'1'` cannot start an NCName) — yet `Qname::nom_parse` does not fail as the
claim states: `alt!` falls back to the one-part branch, returning local part
`"foo"` with the colon left unconsumed in the remaining text `":1bar"`. -/
theorem c8_qname_no_fallback_counterexample :
    (qname_two_part "foo:1bar".toList).isSome = false ∧
    (qname_nom_parse "foo:1bar".toList).map
      (fun r => (r.1, r.2.prefix_.map NcnameString.as_str, r.2.local_.as_str)) =
      some (":1bar".toList, none, "foo".toList) := by
  decide

/-- C8 (amended): `Qname::nom_parse` attempts the two-part form
`NCNAME ':' NCNAME` first and returns its result whenever it succeeds; when
the two-part branch fails (including downstream validation failure after a
leading `NCNAME ':'`), it falls back to the one-part form, leaving the colon
and what follows unconsumed; recognizing `"foo:bar  "` yields prefix
`"foo"`, local `"bar"`, remaining `"  "`. -/
theorem c8_qname_parse_greedy_with_fallback :
    (∀ input : List Char, (qname_two_part input).isSome = true →
      qname_nom_parse input = qname_two_part input) ∧
    (∀ input : List Char, (qname_two_part input).isSome = false →
      qname_nom_parse input = qname_one_part input) ∧
    ((qname_nom_parse "foo:bar  ".toList).map
      (fun r => (r.1, r.2.prefix_.map NcnameString.as_str, r.2.local_.as_str)) =
      some ("  ".toList, some "foo".toList, "bar".toList)) := by
  refine ⟨?_, ?_, by decide⟩ <;> intro input h <;>
    cases hq : qname_two_part input <;>
      rw [hq] at h <;> simp_all [qname_nom_parse, hq]

/-- Witness for C8 at the concrete inputs `"a:b"` (two-part branch taken)
and `"ab"` (fallback taken). -/
theorem c8_qname_parse_greedy_with_fallback_witness :
    (qname_two_part "a:b".toList).isSome = true ∧
    qname_nom_parse "a:b".toList = qname_two_part "a:b".toList ∧
    (qname_two_part "ab".toList).isSome = false ∧
    qname_nom_parse "ab".toList = qname_one_part "ab".toList :=
  ⟨by decide, c8_qname_parse_greedy_with_fallback.1 _ (by decide),
   by decide, c8_qname_parse_greedy_with_fallback.2.1 _ (by decide)⟩

/-- C9: every comparison the crate defines — within a view type, within a
buffer type, buffer against view, and view/buffer against plain strings,
for both grammar families — coincides with equality / byte-wise ordering of
the underlying text. -/
theorem c9_cmp_coincides_with_text :
    (∀ x y : NameStr, (NameStr.eq x y = true ↔ x.as_str = y.as_str) ∧
      NameStr.cmp x y = str_compare x.as_str y.as_str) ∧
    (∀ x y : NameString, (NameString.eq x y = true ↔ x.as_str = y.as_str) ∧
      NameString.cmp x y = str_compare x.as_str y.as_str) ∧
    (∀ b : NameString, ∀ v : NameStr,
      (NameString.eq_view b v = true ↔ b.as_str = v.as_str) ∧
      NameString.cmp_view b v = str_compare b.as_str v.as_str) ∧
    (∀ v : NameStr, ∀ s : List Char,
      (NameStr.eq_plain v s = true ↔ v.as_str = s) ∧
      NameStr.cmp_plain v s = str_compare v.as_str s) ∧
    (∀ b : NameString, ∀ s : List Char,
      (NameString.eq_plain b s = true ↔ b.as_str = s) ∧
      NameString.cmp_plain b s = str_compare b.as_str s) ∧
    (∀ x y : NcnameStr, (NcnameStr.eq x y = true ↔ x.as_str = y.as_str) ∧
      NcnameStr.cmp x y = str_compare x.as_str y.as_str) ∧
    (∀ x y : NcnameString,
      (NcnameString.eq x y = true ↔ x.as_str = y.as_str) ∧
      NcnameString.cmp x y = str_compare x.as_str y.as_str) ∧
    (∀ b : NcnameString, ∀ v : NcnameStr,
      (NcnameString.eq_view b v = true ↔ b.as_str = v.as_str) ∧
      NcnameString.cmp_view b v = str_compare b.as_str v.as_str) ∧
    (∀ v : NcnameStr, ∀ s : List Char,
      (NcnameStr.eq_plain v s = true ↔ v.as_str = s) ∧
      NcnameStr.cmp_plain v s = str_compare v.as_str s) ∧
    (∀ b : NcnameString, ∀ s : List Char,
      (NcnameString.eq_plain b s = true ↔ b.as_str = s) ∧
      NcnameString.cmp_plain b s = str_compare b.as_str s) := by
  refine ⟨?_, ?_, ?_, ?_, ?_, ?_, ?_, ?_, ?_, ?_⟩ <;> intro a b <;>
    exact ⟨by simp [NameStr.eq, NameString.eq, NameString.eq_view,
      NameStr.eq_plain, NameString.eq_plain, NcnameStr.eq, NcnameString.eq,
      NcnameString.eq_view, NcnameStr.eq_plain, NcnameString.eq_plain,
      str_eq, NameStr.as_str, NameString.as_str, NcnameStr.as_str,
      NcnameString.as_str, NameString.borrow, NcnameString.borrow], rfl⟩

/-- C10: the general constructor `Qname::new` agrees with `from_local` /
`from_prefix_and_local`, the `prefix` / `local` accessors return the
borrowed views of the parts, and `deconstruct` returns both owned parts
unchanged. -/
theorem c10_qname_new_coherent :
    (∀ l : NcnameString, Qname.new none l = Qname.from_local l) ∧
    (∀ p l : NcnameString,
      Qname.new (some p) l = Qname.from_prefix_and_local p l) ∧
    (∀ p l : NcnameString, (Qname.new (some p) l).prefixView = some p.borrow ∧
      (Qname.new (some p) l).localView = l.borrow) ∧
    (∀ l : NcnameString, (Qname.new none l).prefixView = none ∧
      (Qname.new none l).localView = l.borrow) ∧
    (∀ p l : NcnameString, (Qname.new (some p) l).deconstruct = (some p, l)) ∧
    (∀ l : NcnameString, (Qname.new none l).deconstruct = (none, l)) :=
  ⟨fun _ => rfl, fun _ _ => rfl, fun _ _ => ⟨rfl, rfl⟩,
   fun _ => ⟨rfl, rfl⟩, fun _ _ => rfl, fun _ => rfl⟩
